import Mathlib

/-!
Verification development for the email-marketing report pipeline
(`data_processor.py`, class `EmailDataProcessor`).

The embedding models the data-aggregation pipeline: percentage
normalization, week-label resolution, the left join against the
automation mapping, the three group-by aggregations with their derived
rates, and the week-over-week trend computation.

Modelling conventions:
* volume counters (`Sent`, `Delivered`, ...) are exact integers (the CSV
  columns hold integer counts; `pd.to_numeric` parses them exactly);
* float results of divisions are modelled by `PVal`: an exact rational,
  NaN, or a signed infinity, with IEEE-754 division semantics as numpy
  produces them (`0/0 = NaN`, `x/0 = ±inf`);
* rational arithmetic is phrased through `Rat.divInt` / `mkRat` so that
  every definition evaluates inside the kernel;
* Python string comparison (used by `sort_values` and `groupby` key
  ordering) is lexicographic on code points, modelled by comparing the
  lists of character codes.
-/

namespace EmailReport

/-! ## Float model -/

/-- Value of a pandas float cell produced by a division: an exact
rational, NaN, or a signed infinity. -/
inductive PVal where
  | num (q : ℚ)
  | nan
  | pinf
  | ninf
deriving DecidableEq

/-- Division of two integer counter sums as numpy float division performs
it: `0/0` is NaN, `n/0` is a signed infinity, otherwise the exact
quotient. -/
def pdiv (n d : ℤ) : PVal :=
  if d = 0 then
    if n = 0 then .nan else if 0 < n then .pinf else .ninf
  else .num (Rat.divInt n d)

/-- Exact quotient of two rationals, written via `Rat.divInt` so that it
evaluates in the kernel. Equals `a / b` (see `qdiv_eq_div`). -/
def qdiv (a b : ℚ) : ℚ := Rat.divInt (a.num * (b.den : ℤ)) ((a.den : ℤ) * b.num)

/-- Exact difference of two rationals via `Rat.divInt`. Equals `a - b`. -/
def qsub (a b : ℚ) : ℚ :=
  Rat.divInt (a.num * (b.den : ℤ) - b.num * (a.den : ℤ)) ((a.den : ℤ) * (b.den : ℤ))

/-- Multiplication of a rational by 100 via `Rat.divInt`. -/
def qmul100 (a : ℚ) : ℚ := Rat.divInt (a.num * 100) (a.den : ℤ)

/-- IEEE-style division on float values (used by `pct_change`, which
computes `cur / prev - 1`). -/
def pvDiv : PVal → PVal → PVal
  | .nan, _ => .nan
  | _, .nan => .nan
  | .num a, .num b =>
    if b = 0 then
      if a = 0 then .nan else if 0 < a.num then .pinf else .ninf
    else .num (qdiv a b)
  | .num _, .pinf => .num 0
  | .num _, .ninf => .num 0
  | .pinf, .num b => if b < 0 then .ninf else .pinf
  | .ninf, .num b => if b < 0 then .pinf else .ninf
  | .pinf, .pinf => .nan
  | .pinf, .ninf => .nan
  | .ninf, .pinf => .nan
  | .ninf, .ninf => .nan

/-- Subtracting the constant 1 from a float value. -/
def pvSubOne : PVal → PVal
  | .num a => .num (qsub a 1)
  | v => v

/-- Multiplying a float value by the constant 100. -/
def pvMul100 : PVal → PVal
  | .num a => .num (qmul100 a)
  | v => v

/-- One step of `pct_change() * 100`: pandas computes
`cur / prev - 1`, and `get_week_over_week_changes` multiplies by 100. -/
def pctChange100 (prev cur : PVal) : PVal := pvMul100 (pvSubOne (pvDiv cur prev))

/-! ## Python string-comparison model -/

/-- Code points of a string, the key Python compares strings by. -/
def strKey (s : String) : List ℕ := s.data.map Char.toNat

/-- Strict lexicographic order on code-point lists (Python `<` on
strings). -/
def ltKey : List ℕ → List ℕ → Bool
  | [], [] => false
  | [], _ :: _ => true
  | _ :: _, [] => false
  | a :: as, b :: bs => a < b || (a == b && ltKey as bs)

/-- Non-strict lexicographic order on code-point lists. -/
def leKey (a b : List ℕ) : Bool := ltKey a b || a == b

/-- Lexicographic comparison of `(Automacao, Semana)` pairs, as
`sort_values(['Automacao', 'Semana'])` and the two-column `groupby`
order them. -/
def pairLeB (a b : String × String) : Bool :=
  ltKey (strKey a.1) (strKey b.1) ||
    (strKey a.1 == strKey b.1 && leKey (strKey a.2) (strKey b.2))

/-! ## Normalizer: percentage coercion (`_convert_percent_to_float`) -/

/-- A raw cell of one of the six rate columns: a string, an
already-numeric value, or a missing value (NaN). -/
inductive Cell where
  | str (s : String)
  | num (q : ℚ)
  | na
deriving DecidableEq

/-- Numeric value of a digit list, most significant first. -/
def natOfDigits (l : List Char) : ℕ := l.foldl (fun n c => 10 * n + (c.toNat - 48)) 0

/-- Strips leading and trailing whitespace, as Python `float()` does. -/
def trimChars (l : List Char) : List Char :=
  ((l.dropWhile Char.isWhitespace).reverse.dropWhile Char.isWhitespace).reverse

/-- Model of Python `float()` on plain decimal literals: optional
surrounding whitespace, an optional sign, then digits with an optional
single decimal point (at least one digit overall). Exponent notation
and inf/nan spellings are outside the model; everything else fails the
way `float()` raises `ValueError`. -/
def parseFloat (s : String) : Option ℚ :=
  let t := trimChars s.data
  let signed : Bool × List Char :=
    match t with
    | '-' :: rest => (true, rest)
    | '+' :: rest => (false, rest)
    | rest => (false, rest)
  let ip := signed.2.takeWhile Char.isDigit
  let rest := signed.2.dropWhile Char.isDigit
  let make : List Char → List Char → Option ℚ := fun ipart fpart =>
    if ipart.isEmpty && fpart.isEmpty then none
    else
      let n : ℤ := (natOfDigits (ipart ++ fpart) : ℤ)
      some (mkRat (if signed.1 then -n else n) (10 ^ fpart.length))
  match rest with
  | [] => make ip []
  | '.' :: fp => if fp.all Char.isDigit then make ip fp else none
  | _ => none

/-- Python `value.strip('%')`: removes `%` characters from both ends. -/
def stripPercent (l : List Char) : List Char :=
  ((l.dropWhile (· == '%')).reverse.dropWhile (· == '%')).reverse

/-- Python `value.endswith('%')` for the single-character suffix. -/
def endsWithPercent (s : String) : Bool := s.data.getLast? == some '%'

/-- Division of a parsed percentage by 100, via `Rat.divInt`. -/
def qdiv100 (q : ℚ) : ℚ := Rat.divInt q.num ((q.den : ℤ) * 100)

/-- Embedding of `_convert_percent_to_float` (src lines 45-49):
a string ending in `%` is stripped and parsed with `float(...)` — which
raises `ValueError` when the remainder is not a float literal — and
divided by 100; every other value is returned unchanged. -/
def convertPercentToFloat : Cell → Except String Cell
  | .str s =>
    if endsWithPercent s then
      match parseFloat ((stripPercent s.data).asString) with
      | some q => .ok (.num (qdiv100 q))
      | none => .error ("ValueError")
    else .ok (.str s)
  | v => .ok v

/-- Applying the conversion to a whole rate column, as
`df[col].apply(self._convert_percent_to_float)` does; an exception in
any cell propagates. -/
def convertRateColumn (col : List Cell) : Except String (List Cell) :=
  col.mapM convertPercentToFloat

/-! ## Normalizer: week-label resolution (`load_weekly_data`, lines 93-109) -/

/-- The suffix after the first occurrence of `pat`, or `none` when `pat`
does not occur (`pat` is assumed nonempty). -/
def afterFirst (pat : List Char) : List Char → Option (List Char)
  | [] => none
  | c :: rest =>
    if pat.isPrefixOf (c :: rest) then some ((c :: rest).drop pat.length)
    else afterFirst pat rest

/-- Characters before the first occurrence of `pat`; the whole list when
`pat` does not occur. -/
def beforeFirst (pat : List Char) : List Char → List Char
  | [] => []
  | c :: rest =>
    if pat.isPrefixOf (c :: rest) then [] else c :: beforeFirst pat rest

/-- Python `pat in s`. -/
def containsSub (pat : List Char) (l : List Char) : Bool := (afterFirst pat l).isSome

/-- Python `os.path.basename`: the part after the last `/`. -/
def pyBasename (s : String) : String :=
  ((s.data.reverse.takeWhile (fun c => !(c == '/'))).reverse).asString

def sentPat : List Char := ("sent_").data

def csvPat : List Char := (".csv").data

/-- The `date_part` of the filename:
`filename.split('sent_')[1].split('.csv')[0]` — the characters between
the first `sent_` and the following `.csv` (or second `sent_`). -/
def extractDatePart (filename : List Char) : List Char :=
  beforeFirst csvPat (beforeFirst sentPat ((afterFirst sentPat filename).getD []))

/-- Week-label resolution of `load_weekly_data` (src lines 93-109).
When no explicit label is given the code tries the filename convention
under the guard `'sent_' in filename and '.csv' in filename`. The guard
body consists of `str.split`, slicing, and an f-string, none of which
can raise for a `str` path, so the `except` branch (the
`"Semana <week>, <year>"` fallback) is unreachable; when the guard is
false, `week_label` simply remains `None`. -/
def resolveWeekLabel (weekLabel : Option String) (filePath : String) : Option String :=
  match weekLabel with
  | some l => some l
  | none =>
    let filename := (pyBasename filePath).data
    if containsSub sentPat filename && containsSub csvPat filename then
      let datePart := extractDatePart filename
      some ((datePart.take 10).asString ++ (" a ") ++ (datePart.drop 10).asString)
    else none

/-! ## Data model: rows, store, mapping -/

/-- One row of a normalized weekly table (the columns the aggregations
read). -/
structure MsgRow where
  messageName : String
  subject : String
  semana : String
  sent : ℤ
  delivered : ℤ
  opened : ℤ
  clicked : ℤ
  bounced : ℤ
  unsubscribed : ℤ
deriving DecidableEq

/-- One row of the automation mapping table. -/
structure MapRow where
  messageName : String
  automacao : String
deriving DecidableEq

/-- The historical store: week label to weekly table, in insertion
order (`historical_data` together with `metadata['weeks']`). -/
abbrev Store := List (String × List MsgRow)

/-- `combine_all_weeks`: concatenation of all stored weekly tables in
insertion order. -/
def combineAllWeeks (store : Store) : List MsgRow := (store.map Prod.snd).flatten

/-- `merge_with_mapping` (src lines 163-182): pandas left merge on
`Message name`. Every left row is kept; a row with no mapping match gets
a null (`none`) `Automacao`, a row with k matches yields k rows. -/
def mergeWithMapping (df : List MsgRow) (mapping : List MapRow) :
    List (MsgRow × Option String) :=
  df.flatMap fun r =>
    match mapping.filter (fun m => m.messageName == r.messageName) with
    | [] => [(r, none)]
    | ms => ms.map fun m => (r, some m.automacao)

/-! ## Aggregations -/

/-- Sum of one counter column over a list of rows. -/
def sumInt (f : MsgRow → ℤ) (rows : List MsgRow) : ℤ := (rows.map f).sum

/-- One row of the automation-level aggregate
(`get_automation_performance`). -/
structure AggRow where
  automacao : String
  sent : ℤ
  delivered : ℤ
  opened : ℤ
  clicked : ℤ
  bounced : ℤ
  unsubscribed : ℤ
  deliveryRate : PVal
  openRate : PVal
  clickRate : PVal
  ctor : PVal
  bounceRate : PVal
  unsubscribeRate : PVal
deriving DecidableEq

/-- Rows of the merged table belonging to one automation group. Rows
whose group is null match no `some g` and are dropped, exactly as
`groupby('Automacao')` drops NaN keys. -/
def rowsOfGroup (g : String) (merged : List (MsgRow × Option String)) : List MsgRow :=
  (merged.filter (fun p => p.2 == some g)).map Prod.fst

/-- Summed counters and recomputed rates for one automation group
(src lines 333-348): each rate is the quotient of the summed counters. -/
def mkAgg (g : String) (rows : List MsgRow) : AggRow :=
  { automacao := g
    sent := sumInt (·.sent) rows
    delivered := sumInt (·.delivered) rows
    opened := sumInt (·.opened) rows
    clicked := sumInt (·.clicked) rows
    bounced := sumInt (·.bounced) rows
    unsubscribed := sumInt (·.unsubscribed) rows
    deliveryRate := pdiv (sumInt (·.delivered) rows) (sumInt (·.sent) rows)
    openRate := pdiv (sumInt (·.opened) rows) (sumInt (·.delivered) rows)
    clickRate := pdiv (sumInt (·.clicked) rows) (sumInt (·.delivered) rows)
    ctor := pdiv (sumInt (·.clicked) rows) (sumInt (·.opened) rows)
    bounceRate := pdiv (sumInt (·.bounced) rows) (sumInt (·.sent) rows)
    unsubscribeRate := pdiv (sumInt (·.unsubscribed) rows) (sumInt (·.delivered) rows) }

/-- The distinct non-null automation groups, in the sorted order pandas
`groupby` emits them. -/
def automationGroups (merged : List (MsgRow × Option String)) : List String :=
  List.insertionSort (fun a b => leKey (strKey a) (strKey b) = true)
    ((merged.filterMap Prod.snd).dedup)

/-- The group-by/sum/rate part of `get_automation_performance`, before
the volume filter. -/
def automationAgg (merged : List (MsgRow × Option String)) : List AggRow :=
  (automationGroups merged).map (fun g => mkAgg g (rowsOfGroup g merged))

/-- `get_automation_performance(min_emails)` (src lines 313-353): merge
all weeks with the mapping, group by automation, sum the counters,
recompute the rates from the sums, then keep groups with
`Sent >= min_emails`. -/
def getAutomationPerformance (store : Store) (mapping : List MapRow) (minEmails : ℤ) :
    List AggRow :=
  (automationAgg (mergeWithMapping (combineAllWeeks store) mapping)).filter
    (fun a => minEmails ≤ a.sent)

/-- One row of the per-automation-per-week aggregate
(`get_weekly_automation_performance`). -/
structure WAggRow where
  automacao : String
  semana : String
  sent : ℤ
  delivered : ℤ
  opened : ℤ
  clicked : ℤ
  bounced : ℤ
  unsubscribed : ℤ
  deliveryRate : PVal
  openRate : PVal
  clickRate : PVal
  ctor : PVal
  bounceRate : PVal
  unsubscribeRate : PVal
deriving DecidableEq

/-- Rows of the merged table belonging to one (automation, week) group. -/
def rowsOfWeekGroup (k : String × String) (merged : List (MsgRow × Option String)) :
    List MsgRow :=
  (merged.filter (fun p => p.2 == some k.1 && p.1.semana == k.2)).map Prod.fst

/-- Summed counters and recomputed rates for one (automation, week)
group (src lines 372-387). -/
def mkWAgg (k : String × String) (rows : List MsgRow) : WAggRow :=
  { automacao := k.1
    semana := k.2
    sent := sumInt (·.sent) rows
    delivered := sumInt (·.delivered) rows
    opened := sumInt (·.opened) rows
    clicked := sumInt (·.clicked) rows
    bounced := sumInt (·.bounced) rows
    unsubscribed := sumInt (·.unsubscribed) rows
    deliveryRate := pdiv (sumInt (·.delivered) rows) (sumInt (·.sent) rows)
    openRate := pdiv (sumInt (·.opened) rows) (sumInt (·.delivered) rows)
    clickRate := pdiv (sumInt (·.clicked) rows) (sumInt (·.delivered) rows)
    ctor := pdiv (sumInt (·.clicked) rows) (sumInt (·.opened) rows)
    bounceRate := pdiv (sumInt (·.bounced) rows) (sumInt (·.sent) rows)
    unsubscribeRate := pdiv (sumInt (·.unsubscribed) rows) (sumInt (·.delivered) rows) }

/-- The distinct non-null (automation, week) keys, sorted as the
two-column `groupby` emits them; rows with a null group are dropped. -/
def weeklyGroups (merged : List (MsgRow × Option String)) : List (String × String) :=
  List.insertionSort (fun a b => pairLeB a b = true)
    ((merged.filterMap (fun p => p.2.map (fun g => (g, p.1.semana)))).dedup)

/-- The group-by/sum/rate computation of
`get_weekly_automation_performance` over a merged table. -/
def weeklyAgg (merged : List (MsgRow × Option String)) : List WAggRow :=
  (weeklyGroups merged).map (fun k => mkWAgg k (rowsOfWeekGroup k merged))

/-- `get_weekly_automation_performance` (src lines 355-389). -/
def getWeeklyAutomationPerformance (store : Store) (mapping : List MapRow) :
    List WAggRow :=
  weeklyAgg (mergeWithMapping (combineAllWeeks store) mapping)

/-- One row of the subject-level aggregate
(`analyze_subject_performance`). -/
structure SubjRow where
  subject : String
  sent : ℤ
  delivered : ℤ
  opened : ℤ
  clicked : ℤ
  bounced : ℤ
  unsubscribed : ℤ
  deliveryRate : PVal
  openRate : PVal
  clickRate : PVal
  ctor : PVal
  bounceRate : PVal
  unsubscribeRate : PVal
  subjectLength : ℕ
  hasPersonalization : Bool
  hasQuestion : Bool
  hasNumber : Bool
deriving DecidableEq

/-- Summed counters, recomputed rates, and the subject-text features for
one subject group (src lines 405-429). -/
def mkSubj (subj : String) (rows : List MsgRow) : SubjRow :=
  { subject := subj
    sent := sumInt (·.sent) rows
    delivered := sumInt (·.delivered) rows
    opened := sumInt (·.opened) rows
    clicked := sumInt (·.clicked) rows
    bounced := sumInt (·.bounced) rows
    unsubscribed := sumInt (·.unsubscribed) rows
    deliveryRate := pdiv (sumInt (·.delivered) rows) (sumInt (·.sent) rows)
    openRate := pdiv (sumInt (·.opened) rows) (sumInt (·.delivered) rows)
    clickRate := pdiv (sumInt (·.clicked) rows) (sumInt (·.delivered) rows)
    ctor := pdiv (sumInt (·.clicked) rows) (sumInt (·.opened) rows)
    bounceRate := pdiv (sumInt (·.bounced) rows) (sumInt (·.sent) rows)
    unsubscribeRate := pdiv (sumInt (·.unsubscribed) rows) (sumInt (·.delivered) rows)
    subjectLength := subj.data.length
    hasPersonalization :=
      containsSub ("\x7b\x7bCONTACT").data subj.data ||
        containsSub ("\x7b\x7bcontact").data subj.data
    hasQuestion := subj.data.any (fun c => c == '?')
    hasNumber := subj.data.any Char.isDigit }

/-- The distinct subjects, in sorted `groupby` order. -/
def subjectGroups (rows : List MsgRow) : List String :=
  List.insertionSort (fun a b => leKey (strKey a) (strKey b) = true)
    ((rows.map (·.subject)).dedup)

/-- `analyze_subject_performance(min_emails)` (src lines 391-431):
group the combined table by subject (no mapping join), sum, recompute
rates, filter on total `Sent`, and derive the subject-text features. -/
def analyzeSubjectPerformance (store : Store) (minEmails : ℤ) : List SubjRow :=
  let allRows := combineAllWeeks store
  ((subjectGroups allRows).map
      (fun s => mkSubj s (allRows.filter (fun r => r.subject == s)))).filter
    (fun a => minEmails ≤ a.sent)

/-! ## Whole-week summary (`get_week_summary`) -/

/-- `get_week_summary`'s rate computation (src lines 272-278):
`numerator / denominator if denominator > 0 else 0`. -/
def guardedRate (n d : ℤ) : ℚ := if 0 < d then Rat.divInt n d else 0

/-- The summary dictionary of `get_week_summary` for one week's table. -/
structure WeekSummary where
  semana : String
  totalSent : ℤ
  totalDelivered : ℤ
  totalOpened : ℤ
  totalClicked : ℤ
  totalBounced : ℤ
  totalUnsubscribed : ℤ
  deliveryRate : ℚ
  openRate : ℚ
  clickRate : ℚ
  bounceRate : ℚ
  unsubscribeRate : ℚ
  ctor : ℚ
deriving DecidableEq

/-- Body of `get_week_summary` (src lines 246-296) applied to one
week's table. -/
def mkWeekSummary (label : String) (rows : List MsgRow) : WeekSummary :=
  { semana := label
    totalSent := sumInt (·.sent) rows
    totalDelivered := sumInt (·.delivered) rows
    totalOpened := sumInt (·.opened) rows
    totalClicked := sumInt (·.clicked) rows
    totalBounced := sumInt (·.bounced) rows
    totalUnsubscribed := sumInt (·.unsubscribed) rows
    deliveryRate := guardedRate (sumInt (·.delivered) rows) (sumInt (·.sent) rows)
    openRate := guardedRate (sumInt (·.opened) rows) (sumInt (·.delivered) rows)
    clickRate := guardedRate (sumInt (·.clicked) rows) (sumInt (·.delivered) rows)
    bounceRate := guardedRate (sumInt (·.bounced) rows) (sumInt (·.sent) rows)
    unsubscribeRate := guardedRate (sumInt (·.unsubscribed) rows) (sumInt (·.delivered) rows)
    ctor := guardedRate (sumInt (·.clicked) rows) (sumInt (·.opened) rows) }

/-- `get_week_summary(week_label)`: `None` models the `ValueError` for a
missing week. -/
def getWeekSummary (store : Store) (label : String) : Option WeekSummary :=
  ((store.find? (fun p => p.1 == label)).map Prod.snd).map (mkWeekSummary label)

/-! ## Trend engine (`get_week_over_week_changes`) -/

/-- One row of the week-over-week change table. -/
structure TrendRow where
  row : WAggRow
  openRateChange : PVal
  clickRateChange : PVal
  ctorChange : PVal
deriving DecidableEq

/-- The most recently seen (open, click, ctor) rates for an automation. -/
def lastRates (seen : List (String × (PVal × PVal × PVal))) (a : String) :
    Option (PVal × PVal × PVal) :=
  (seen.find? (fun p => p.1 == a)).map Prod.snd

/-- `groupby('Automacao')[col].pct_change() * 100` for the three rate
columns: each row's change is computed against the nearest earlier row
of the same automation; the first row of an automation gets NaN. The
model uses pandas' current (no forward-fill) `pct_change` semantics. -/
def attachChanges (seen : List (String × (PVal × PVal × PVal))) :
    List WAggRow → List TrendRow
  | [] => []
  | r :: rest =>
    let c := match lastRates seen r.automacao with
      | none => (PVal.nan, PVal.nan, PVal.nan)
      | some (po, pc, pt) =>
        (pctChange100 po r.openRate, pctChange100 pc r.clickRate, pctChange100 pt r.ctor)
    ⟨r, c.1, c.2.1, c.2.2⟩ :: attachChanges ((r.automacao, (r.openRate, r.clickRate, r.ctor)) :: seen) rest

/-- `get_week_over_week_changes` (src lines 433-450): take the weekly
automation aggregate, sort it with
`sort_values(['Automacao', 'Semana'])` — lexicographically on the label
strings — and compute the three per-automation percentage changes. -/
def getWeekOverWeekChanges (store : Store) (mapping : List MapRow) : List TrendRow :=
  attachChanges []
    (List.insertionSort (fun a b => pairLeB (a.automacao, a.semana) (b.automacao, b.semana) = true)
      (getWeeklyAutomationPerformance store mapping))

/-! ## Concrete inputs used by the scenario theorem, counterexamples and witnesses -/

/-- Row `A: sent=100, delivered=98, opened=25, clicked=5` of the
end-to-end scenario. -/
def rowA : MsgRow := ⟨("A"), ("sa"), ("W1"), 100, 98, 25, 5, 0, 0⟩

/-- Row `B: sent=150, delivered=148, opened=30, clicked=8` of the
end-to-end scenario. -/
def rowB : MsgRow := ⟨("B"), ("sb"), ("W1"), 150, 148, 30, 8, 0, 0⟩

/-- One ingested week holding rows A and B. -/
def demoStore : Store := [(("W1"), [rowA, rowB])]

/-- The mapping `A → G1, B → G1`. -/
def demoMapping : List MapRow := [⟨("A"), ("G1")⟩, ⟨("B"), ("G1")⟩]

/-- The G1 aggregate row the pipeline builds for the scenario. -/
def demoAggRow : AggRow :=
  mkAgg ("G1") (rowsOfGroup ("G1") (mergeWithMapping (combineAllWeeks demoStore) demoMapping))

/-- A row whose delivered/opened/clicked counters are all zero while
sent passes the volume filter. -/
def c1Row : MsgRow := ⟨("A"), ("s"), ("W1"), 100, 0, 0, 0, 0, 0⟩

/-- Store holding only `c1Row`. -/
def c1Store : Store := [(("W1"), [c1Row])]

/-- Mapping sending campaign A to group G1. -/
def c1Mapping : List MapRow := [⟨("A"), ("G1")⟩]

def c2RowW9 : MsgRow := ⟨("A"), ("s"), ("Week 9"), 10, 10, 5, 1, 0, 0⟩

def c2RowW10 : MsgRow := ⟨("A"), ("s"), ("Week 10"), 10, 10, 2, 1, 0, 0⟩

/-- Store whose insertion order is `Week 9` before `Week 10`. -/
def c2Store : Store := [(("Week 9"), [c2RowW9]), (("Week 10"), [c2RowW10])]

def c2Mapping : List MapRow := [⟨("A"), ("G1")⟩]

def c3Row1 : MsgRow := ⟨("A"), ("s"), ("W1"), 100, 100, 0, 0, 0, 0⟩

def c3Row2 : MsgRow := ⟨("A"), ("s"), ("W2"), 100, 100, 50, 0, 0, 0⟩

/-- Two weeks for one automation: open rate 0, then 1/2. -/
def c3Store : Store := [(("W1"), [c3Row1]), (("W2"), [c3Row2])]

def c3Mapping : List MapRow := [⟨("A"), ("G1")⟩]

/-- The single weekly aggregate row of `c3Store`'s first week. -/
def c3WRow : WAggRow := mkWAgg ((("G1"), ("W1"))) [c3Row1]

def c6RowW1 : MsgRow := ⟨("A"), ("s"), ("W1"), 50, 50, 10, 1, 0, 0⟩

def c6RowW2 : MsgRow := ⟨("A"), ("s"), ("W2"), 50, 50, 10, 1, 0, 0⟩

/-- Two weeks of 50 sent each: every weekly contribution is below the
threshold 100, the total meets it. -/
def c6Store : Store := [(("W1"), [c6RowW1]), (("W2"), [c6RowW2])]

def c6Mapping : List MapRow := [⟨("A"), ("G1")⟩]

/-- Input column for the C8 witness: an in-range numeric cell, an
in-range percent string, and a missing value. -/
def c8Col : List Cell := [Cell.num (mkRat 1 2), Cell.str ("55%"), Cell.na]

/-- The converted column for the C8 witness. -/
def c8Out : List Cell := [Cell.num (mkRat 1 2), Cell.num (qdiv100 (mkRat 55 1)), Cell.na]

/-- A campaign row absent from the demo mapping. -/
def c9Row : MsgRow := ⟨("X"), ("s"), ("W1"), 10, 10, 1, 1, 0, 0⟩

/-! ## Helper lemmas: rational arithmetic bridges -/

theorem qdiv_eq_div (a b : ℚ) : qdiv a b = a / b := by
  rcases eq_or_ne b 0 with rfl | hb
  · simp [qdiv, Rat.divInt_zero]
  · have hbn : b.num ≠ 0 := Rat.num_ne_zero.mpr hb
    have had : ((a.den : ℚ)) ≠ 0 := by positivity
    have hbd : ((b.den : ℚ)) ≠ 0 := by positivity
    have hbq : ((b.num : ℚ)) ≠ 0 := Int.cast_ne_zero.mpr hbn
    rw [qdiv, Rat.divInt_eq_div]
    push_cast
    conv_rhs => rw [← Rat.num_div_den a, ← Rat.num_div_den b]
    field_simp
theorem qsub_eq_sub (a b : ℚ) : qsub a b = a - b := by
  have had : ((a.den : ℚ)) ≠ 0 := by positivity
  have hbd : ((b.den : ℚ)) ≠ 0 := by positivity
  rw [qsub, Rat.divInt_eq_div]
  push_cast
  conv_rhs => rw [← Rat.num_div_den a, ← Rat.num_div_den b]
  field_simp
  ring
theorem qmul100_eq (a : ℚ) : qmul100 a = a * 100 := by
  have had : ((a.den : ℚ)) ≠ 0 := by positivity
  rw [qmul100, Rat.divInt_eq_div]
  push_cast
  conv_rhs => rw [← Rat.num_div_den a]
  field_simp
theorem qdiv100_eq (q : ℚ) : qdiv100 q = q / 100 := by
  have had : ((q.den : ℚ)) ≠ 0 := by positivity
  rw [qdiv100, Rat.divInt_eq_div]
  push_cast
  conv_rhs => rw [← Rat.num_div_den q]
  field_simp
theorem pdiv_eq_div (n d : ℤ) (hd : d ≠ 0) : pdiv n d = .num ((n : ℚ) / (d : ℚ)) := by
  rw [pdiv, if_neg hd, Rat.divInt_eq_div]
theorem pdiv_zero_ne_zero (n : ℤ) : pdiv n 0 ≠ .num 0 := by
  rw [pdiv, if_pos rfl]
  split_ifs <;> simp
theorem guardedRate_pos (n d : ℤ) (hd : 0 < d) : guardedRate n d = (n : ℚ) / d := by
  rw [guardedRate, if_pos hd, Rat.divInt_eq_div]
theorem pctChange100_num (p c : ℚ) (hp : p ≠ 0) :
    pctChange100 (.num p) (.num c) = .num ((c - p) / p * 100) := by
  simp only [pctChange100, pvDiv, if_neg hp, pvSubOne, pvMul100]
  rw [qmul100_eq, qsub_eq_sub, qdiv_eq_div]
  congr 1
  field_simp
theorem pctChange100_zero_of_pos (c : ℚ) (hc : 0 < c) :
    pctChange100 (.num 0) (.num c) = .pinf := by
  have hcn : 0 < c.num := Rat.num_pos.mpr hc
  have hc0 : c ≠ 0 := ne_of_gt hc
  simp [pctChange100, pvDiv, hc0, hcn, pvSubOne, pvMul100]
/-! ## Helper lemmas: the lexicographic key order -/
theorem ltKey_trans : ∀ {a b c : List ℕ}, ltKey a b = true → ltKey b c = true →
    ltKey a c = true := by
  intro a
  induction a with
  | nil =>
    intro b c h₁ h₂
    cases b with
    | nil => simp [ltKey] at h₁
    | cons y ys =>
      cases c with
      | nil => simp [ltKey] at h₂
      | cons z zs => simp [ltKey]
  | cons x xs ih =>
    intro b c h₁ h₂
    cases b with
    | nil => simp [ltKey] at h₁
    | cons y ys =>
      cases c with
      | nil => simp [ltKey] at h₂
      | cons z zs =>
        simp only [ltKey, Bool.or_eq_true, Bool.and_eq_true, decide_eq_true_eq,
          beq_iff_eq] at h₁ h₂ ⊢
        rcases h₁ with h₁ | ⟨he₁, h₁⟩ <;> rcases h₂ with h₂ | ⟨he₂, h₂⟩
        · exact Or.inl (by omega)
        · exact Or.inl (by omega)
        · exact Or.inl (by omega)
        · exact Or.inr ⟨by omega, ih h₁ h₂⟩
theorem ltKey_trichotomy : ∀ (a b : List ℕ), ltKey a b = true ∨ a = b ∨ ltKey b a = true := by
  intro a
  induction a with
  | nil => intro b; cases b <;> simp [ltKey]
  | cons x xs ih =>
    intro b
    cases b with
    | nil => simp [ltKey]
    | cons y ys =>
      simp only [ltKey, Bool.or_eq_true, Bool.and_eq_true, decide_eq_true_eq, beq_iff_eq,
        List.cons.injEq]
      rcases Nat.lt_trichotomy x y with h | h | h
      · exact Or.inl (Or.inl h)
      · rcases ih ys with h' | h' | h'
        · exact Or.inl (Or.inr ⟨h, h'⟩)
        · exact Or.inr (Or.inl ⟨h, h'⟩)
        · exact Or.inr (Or.inr (Or.inr ⟨h.symm, h'⟩))
      · exact Or.inr (Or.inr (Or.inl h))
theorem leKey_total (a b : List ℕ) : leKey a b = true ∨ leKey b a = true := by
  rcases ltKey_trichotomy a b with h | h | h
  · exact Or.inl (by simp [leKey, h])
  · exact Or.inl (by simp [leKey, h])
  · exact Or.inr (by simp [leKey, h])
theorem leKey_trans : ∀ {a b c : List ℕ}, leKey a b = true → leKey b c = true →
    leKey a c = true := by
  intro a b c h₁ h₂
  simp only [leKey, Bool.or_eq_true, beq_iff_eq] at h₁ h₂ ⊢
  rcases h₁ with h₁ | rfl
  · rcases h₂ with h₂ | rfl
    · exact Or.inl (ltKey_trans h₁ h₂)
    · exact Or.inl h₁
  · exact h₂
theorem pairLeB_total (a b : String × String) : pairLeB a b = true ∨ pairLeB b a = true := by
  simp only [pairLeB, Bool.or_eq_true, Bool.and_eq_true, beq_iff_eq]
  rcases ltKey_trichotomy (strKey a.1) (strKey b.1) with h | h | h
  · exact Or.inl (Or.inl h)
  · rcases leKey_total (strKey a.2) (strKey b.2) with h' | h'
    · exact Or.inl (Or.inr ⟨h, h'⟩)
    · exact Or.inr (Or.inr ⟨h.symm, h'⟩)
  · exact Or.inr (Or.inl h)
theorem pairLeB_trans : ∀ {a b c : String × String}, pairLeB a b = true →
    pairLeB b c = true → pairLeB a c = true := by
  intro a b c h₁ h₂
  simp only [pairLeB, Bool.or_eq_true, Bool.and_eq_true, beq_iff_eq] at h₁ h₂ ⊢
  rcases h₁ with h₁ | ⟨he₁, h₁⟩
  · rcases h₂ with h₂ | ⟨he₂, h₂⟩
    · exact Or.inl (ltKey_trans h₁ h₂)
    · exact Or.inl (by rw [← he₂]; exact h₁)
  · rcases h₂ with h₂ | ⟨he₂, h₂⟩
    · exact Or.inl (by rw [he₁]; exact h₂)
    · exact Or.inr ⟨he₁.trans he₂, leKey_trans h₁ h₂⟩
instance : IsTotal String (fun a b => leKey (strKey a) (strKey b) = true) :=
  ⟨fun a b => leKey_total _ _⟩
instance : IsTrans String (fun a b => leKey (strKey a) (strKey b) = true) :=
  ⟨fun _ _ _ => leKey_trans⟩
instance : IsTotal (String × String) (fun a b => pairLeB a b = true) :=
  ⟨pairLeB_total⟩
instance : IsTrans (String × String) (fun a b => pairLeB a b = true) :=
  ⟨fun _ _ _ => pairLeB_trans⟩
instance : IsTotal WAggRow
    (fun a b => pairLeB (a.automacao, a.semana) (b.automacao, b.semana) = true) :=
  ⟨fun a b => pairLeB_total _ _⟩
instance : IsTrans WAggRow
    (fun a b => pairLeB (a.automacao, a.semana) (b.automacao, b.semana) = true) :=
  ⟨fun _ _ _ => pairLeB_trans⟩
/-! ## Helper lemmas: list plumbing -/
theorem attachChanges_map_row :
    ∀ (l : List WAggRow) (seen), (attachChanges seen l).map TrendRow.row = l := by
  intro l
  induction l with
  | nil => intro seen; rfl
  | cons r rest ih => intro seen; simp [attachChanges, ih]
theorem filterMap_snd_filter_isSome (l : List (MsgRow × Option String)) :
    (l.filter (fun p => p.2.isSome)).filterMap Prod.snd = l.filterMap Prod.snd := by
  induction l with
  | nil => rfl
  | cons p rest ih =>
    cases h : p.2 with
    | none => simp [List.filter_cons, List.filterMap_cons, h, ih]
    | some g => simp [List.filter_cons, List.filterMap_cons, h, ih]
theorem filter_group_filter_isSome (g : String) (l : List (MsgRow × Option String)) :
    (l.filter (fun p => p.2.isSome)).filter (fun p => p.2 == some g) =
      l.filter (fun p => p.2 == some g) := by
  rw [List.filter_filter]
  apply List.filter_congr
  intro p _
  cases p.2 <;> simp
theorem filterMap_week_filter_isSome (l : List (MsgRow × Option String)) :
    (l.filter (fun p => p.2.isSome)).filterMap
        (fun p => p.2.map (fun g => (g, p.1.semana))) =
      l.filterMap (fun p => p.2.map (fun g => (g, p.1.semana))) := by
  induction l with
  | nil => rfl
  | cons p rest ih =>
    cases h : p.2 with
    | none => simp [List.filter_cons, List.filterMap_cons, h, ih]
    | some g => simp [List.filter_cons, List.filterMap_cons, h, ih]
theorem filter_weekgroup_filter_isSome (k : String × String)
    (l : List (MsgRow × Option String)) :
    (l.filter (fun p => p.2.isSome)).filter
        (fun p => p.2 == some k.1 && p.1.semana == k.2) =
      l.filter (fun p => p.2 == some k.1 && p.1.semana == k.2) := by
  rw [List.filter_filter]
  apply List.filter_congr
  intro p _
  cases p.2 <;> simp
/-! ## Helper lemmas: membership in the aggregation outputs -/
theorem mem_automationAgg {merged : List (MsgRow × Option String)} {a : AggRow}
    (ha : a ∈ automationAgg merged) :
    ∃ g, a = mkAgg g (rowsOfGroup g merged) := by
  rcases List.mem_map.mp ha with ⟨g, _, rfl⟩
  exact ⟨g, rfl⟩
theorem agg_rates (g : String) (rows : List MsgRow) :
    (mkAgg g rows).deliveryRate = pdiv (mkAgg g rows).delivered (mkAgg g rows).sent ∧
    (mkAgg g rows).openRate = pdiv (mkAgg g rows).opened (mkAgg g rows).delivered ∧
    (mkAgg g rows).clickRate = pdiv (mkAgg g rows).clicked (mkAgg g rows).delivered ∧
    (mkAgg g rows).ctor = pdiv (mkAgg g rows).clicked (mkAgg g rows).opened ∧
    (mkAgg g rows).bounceRate = pdiv (mkAgg g rows).bounced (mkAgg g rows).sent ∧
    (mkAgg g rows).unsubscribeRate = pdiv (mkAgg g rows).unsubscribed (mkAgg g rows).delivered :=
  ⟨rfl, rfl, rfl, rfl, rfl, rfl⟩
theorem aggRates_of_mem {store : Store} {mapping : List MapRow} {minE : ℤ} {a : AggRow}
    (ha : a ∈ getAutomationPerformance store mapping minE) :
    a.deliveryRate = pdiv a.delivered a.sent ∧
    a.openRate = pdiv a.opened a.delivered ∧
    a.clickRate = pdiv a.clicked a.delivered ∧
    a.ctor = pdiv a.clicked a.opened ∧
    a.bounceRate = pdiv a.bounced a.sent ∧
    a.unsubscribeRate = pdiv a.unsubscribed a.delivered := by
  rcases mem_automationAgg (List.mem_filter.mp ha).1 with ⟨g, rfl⟩
  exact agg_rates g _
theorem waggRates_of_mem {store : Store} {mapping : List MapRow} {a : WAggRow}
    (ha : a ∈ getWeeklyAutomationPerformance store mapping) :
    a.deliveryRate = pdiv a.delivered a.sent ∧
    a.openRate = pdiv a.opened a.delivered ∧
    a.clickRate = pdiv a.clicked a.delivered ∧
    a.ctor = pdiv a.clicked a.opened ∧
    a.bounceRate = pdiv a.bounced a.sent ∧
    a.unsubscribeRate = pdiv a.unsubscribed a.delivered := by
  rcases List.mem_map.mp ha with ⟨k, _, rfl⟩
  exact ⟨rfl, rfl, rfl, rfl, rfl, rfl⟩
theorem subjRates_of_mem {store : Store} {minE : ℤ} {a : SubjRow}
    (ha : a ∈ analyzeSubjectPerformance store minE) :
    a.deliveryRate = pdiv a.delivered a.sent ∧
    a.openRate = pdiv a.opened a.delivered ∧
    a.clickRate = pdiv a.clicked a.delivered ∧
    a.ctor = pdiv a.clicked a.opened ∧
    a.bounceRate = pdiv a.bounced a.sent ∧
    a.unsubscribeRate = pdiv a.unsubscribed a.delivered := by
  rcases List.mem_map.mp (List.mem_filter.mp ha).1 with ⟨s, _, rfl⟩
  exact ⟨rfl, rfl, rfl, rfl, rfl, rfl⟩
theorem weekSummary_rates (label : String) (rows : List MsgRow) :
    (sumInt (fun r => r.delivered) rows = 0 →
      (mkWeekSummary label rows).openRate = 0 ∧ (mkWeekSummary label rows).clickRate = 0 ∧
        (mkWeekSummary label rows).unsubscribeRate = 0) ∧
    (sumInt (fun r => r.sent) rows = 0 →
      (mkWeekSummary label rows).deliveryRate = 0 ∧ (mkWeekSummary label rows).bounceRate = 0) ∧
    (sumInt (fun r => r.opened) rows = 0 → (mkWeekSummary label rows).ctor = 0) ∧
    (0 < sumInt (fun r => r.delivered) rows →
      (mkWeekSummary label rows).openRate =
          (sumInt (fun r => r.opened) rows : ℚ) / (sumInt (fun r => r.delivered) rows : ℚ) ∧
        (mkWeekSummary label rows).clickRate =
          (sumInt (fun r => r.clicked) rows : ℚ) / (sumInt (fun r => r.delivered) rows : ℚ) ∧
        (mkWeekSummary label rows).unsubscribeRate =
          (sumInt (fun r => r.unsubscribed) rows : ℚ) / (sumInt (fun r => r.delivered) rows : ℚ)) ∧
    (0 < sumInt (fun r => r.sent) rows →
      (mkWeekSummary label rows).deliveryRate =
          (sumInt (fun r => r.delivered) rows : ℚ) / (sumInt (fun r => r.sent) rows : ℚ) ∧
        (mkWeekSummary label rows).bounceRate =
          (sumInt (fun r => r.bounced) rows : ℚ) / (sumInt (fun r => r.sent) rows : ℚ)) ∧
    (0 < sumInt (fun r => r.opened) rows →
      (mkWeekSummary label rows).ctor =
        (sumInt (fun r => r.clicked) rows : ℚ) / (sumInt (fun r => r.opened) rows : ℚ)) := by
  refine ⟨?_, ?_, ?_, ?_, ?_, ?_⟩
  · intro h
    refine ⟨?_, ?_, ?_⟩ <;> simp [mkWeekSummary, guardedRate, h]
  · intro h
    refine ⟨?_, ?_⟩ <;> simp [mkWeekSummary, guardedRate, h]
  · intro h
    simp [mkWeekSummary, guardedRate, h]
  · intro h
    exact ⟨guardedRate_pos _ _ h, guardedRate_pos _ _ h, guardedRate_pos _ _ h⟩
  · intro h
    exact ⟨guardedRate_pos _ _ h, guardedRate_pos _ _ h⟩
  · intro h
    exact guardedRate_pos _ _ h
/-! ## Claim theorems -/
theorem attachChanges_pairwise {R : WAggRow → WAggRow → Prop} :
    ∀ (l : List WAggRow) (seen), l.Pairwise R →
      (attachChanges seen l).Pairwise (fun t u => R t.row u.row) := by
  intro l
  induction l with
  | nil => intro seen _; exact List.Pairwise.nil
  | cons r rest ih =>
    intro seen h
    rcases List.pairwise_cons.mp h with ⟨h₁, h₂⟩
    refine List.pairwise_cons.mpr ⟨?_, ih _ h₂⟩
    intro u hu
    have : u.row ∈ (attachChanges ((r.automacao, (r.openRate, r.clickRate, r.ctor)) :: seen)
        rest).map TrendRow.row := List.mem_map_of_mem TrendRow.row hu
    rw [attachChanges_map_row] at this
    exact h₁ u.row this
/-- C2 (amended): before differences are taken, the rows of the
week-over-week change table are ordered by lexicographic string
comparison of the (automation, week-label) pair — `sort_values` — not by
the insertion order of the week labels in the historical store. -/
theorem C2_trend_rows_sorted_lexicographically (store : Store) (mapping : List MapRow) :
    List.Pairwise
      (fun t u => pairLeB (t.row.automacao, t.row.semana) (u.row.automacao, u.row.semana) = true)
      (getWeekOverWeekChanges store mapping) := by
  rw [getWeekOverWeekChanges]
  exact attachChanges_pairwise _ _
    (List.sorted_insertionSort
      (fun a b => pairLeB (a.automacao, a.semana) (b.automacao, b.semana) = true) _)
/-- C10: rows whose automation group is null are silently excluded by
the group-by: dropping them beforehand changes neither the
automation-level nor the per-automation-per-week aggregation. -/
theorem C10_null_groups_excluded (merged : List (MsgRow × Option String)) :
    automationAgg (merged.filter (fun p => p.2.isSome)) = automationAgg merged ∧
    weeklyAgg (merged.filter (fun p => p.2.isSome)) = weeklyAgg merged := by
  constructor
  · simp only [automationAgg, automationGroups, rowsOfGroup, filterMap_snd_filter_isSome,
      filter_group_filter_isSome]
  · simp only [weeklyAgg, weeklyGroups, rowsOfWeekGroup, filterMap_week_filter_isSome,
      filter_weekgroup_filter_isSome]
/-- C9: the merge with the mapping is a left join on the campaign
identifier: every left row survives, and a row whose campaign has no
mapping entry appears with a null automation group. -/
theorem C9_left_join_preserves_rows (df : List MsgRow) (mapping : List MapRow)
    (r : MsgRow) (hr : r ∈ df) :
    (∃ g, (r, g) ∈ mergeWithMapping df mapping) ∧
    ((∀ m ∈ mapping, m.messageName ≠ r.messageName) →
      (r, none) ∈ mergeWithMapping df mapping) := by
  constructor
  · rcases h : mapping.filter (fun m => m.messageName == r.messageName) with _ | ⟨m, ms⟩
    · exact ⟨none, List.mem_flatMap.mpr ⟨r, hr, by simp [h]⟩⟩
    · refine ⟨some m.automacao, List.mem_flatMap.mpr ⟨r, hr, ?_⟩⟩
      simp only [h]
      exact List.mem_map.mpr ⟨m, List.mem_cons_self m ms, rfl⟩
  · intro hno
    have h : mapping.filter (fun m => m.messageName == r.messageName) = [] := by
      rw [List.filter_eq_nil_iff]
      intro m hm
      simpa using hno m hm
    exact List.mem_flatMap.mpr ⟨r, hr, by simp [h]⟩
/-- C6: the minimum-volume filter is applied strictly after the
per-group summation: any automation whose summed `Sent` over all weeks
reaches the threshold appears in the output with exactly that sum — no
condition on its individual weekly contributions — and every output row
satisfies the threshold. -/
theorem C6_min_volume_after_aggregation (store : Store) (mapping : List MapRow)
    (minEmails : ℤ) (g : String)
    (hg : g ∈ (mergeWithMapping (combineAllWeeks store) mapping).filterMap Prod.snd)
    (hsum : minEmails ≤ sumInt (fun r => r.sent)
      (rowsOfGroup g (mergeWithMapping (combineAllWeeks store) mapping))) :
    (∃ a ∈ getAutomationPerformance store mapping minEmails,
      a.automacao = g ∧
      a.sent = sumInt (fun r => r.sent)
        (rowsOfGroup g (mergeWithMapping (combineAllWeeks store) mapping))) ∧
    (∀ a ∈ getAutomationPerformance store mapping minEmails, minEmails ≤ a.sent) := by
  constructor
  · refine ⟨mkAgg g (rowsOfGroup g (mergeWithMapping (combineAllWeeks store) mapping)),
      ?_, rfl, rfl⟩
    rw [getAutomationPerformance]
    refine List.mem_filter.mpr ⟨?_, ?_⟩
    · refine List.mem_map.mpr ⟨g, ?_, rfl⟩
      rw [automationGroups]
      exact ((List.perm_insertionSort _ _).mem_iff).mpr (List.mem_dedup.mpr hg)
    · simpa using hsum
  · intro a ha
    have h := (List.mem_filter.mp ha).2
    simpa using h
/-- C1 (amended): at every granularity each derived rate is the quotient
of its summed numerator and denominator counters. A nonzero denominator
gives exactly the ratio of sums. On a zero denominator only the
whole-week summary produces 0; the group-by granularities (per
automation, per automation-and-week, per subject) produce NaN or a
signed infinity, never 0. -/
theorem C1_rates_are_ratios_of_sums :
    (∀ (store : Store) (mapping : List MapRow) (minE : ℤ) (a : AggRow),
      a ∈ getAutomationPerformance store mapping minE →
      a.deliveryRate = pdiv a.delivered a.sent ∧
      a.openRate = pdiv a.opened a.delivered ∧
      a.clickRate = pdiv a.clicked a.delivered ∧
      a.ctor = pdiv a.clicked a.opened ∧
      a.bounceRate = pdiv a.bounced a.sent ∧
      a.unsubscribeRate = pdiv a.unsubscribed a.delivered) ∧
    (∀ (store : Store) (mapping : List MapRow) (a : WAggRow),
      a ∈ getWeeklyAutomationPerformance store mapping →
      a.deliveryRate = pdiv a.delivered a.sent ∧
      a.openRate = pdiv a.opened a.delivered ∧
      a.clickRate = pdiv a.clicked a.delivered ∧
      a.ctor = pdiv a.clicked a.opened ∧
      a.bounceRate = pdiv a.bounced a.sent ∧
      a.unsubscribeRate = pdiv a.unsubscribed a.delivered) ∧
    (∀ (store : Store) (minE : ℤ) (a : SubjRow),
      a ∈ analyzeSubjectPerformance store minE →
      a.deliveryRate = pdiv a.delivered a.sent ∧
      a.openRate = pdiv a.opened a.delivered ∧
      a.clickRate = pdiv a.clicked a.delivered ∧
      a.ctor = pdiv a.clicked a.opened ∧
      a.bounceRate = pdiv a.bounced a.sent ∧
      a.unsubscribeRate = pdiv a.unsubscribed a.delivered) ∧
    (∀ n d : ℤ, d ≠ 0 → pdiv n d = .num ((n : ℚ) / (d : ℚ))) ∧
    (∀ n : ℤ, pdiv n 0 ≠ .num 0) ∧
    (∀ (label : String) (rows : List MsgRow),
      (sumInt (fun r => r.delivered) rows = 0 →
        (mkWeekSummary label rows).openRate = 0 ∧ (mkWeekSummary label rows).clickRate = 0 ∧
          (mkWeekSummary label rows).unsubscribeRate = 0) ∧
      (sumInt (fun r => r.sent) rows = 0 →
        (mkWeekSummary label rows).deliveryRate = 0 ∧
          (mkWeekSummary label rows).bounceRate = 0) ∧
      (sumInt (fun r => r.opened) rows = 0 → (mkWeekSummary label rows).ctor = 0) ∧
      (0 < sumInt (fun r => r.delivered) rows →
        (mkWeekSummary label rows).openRate =
            (sumInt (fun r => r.opened) rows : ℚ) / (sumInt (fun r => r.delivered) rows : ℚ) ∧
          (mkWeekSummary label rows).clickRate =
            (sumInt (fun r => r.clicked) rows : ℚ) / (sumInt (fun r => r.delivered) rows : ℚ) ∧
          (mkWeekSummary label rows).unsubscribeRate =
            (sumInt (fun r => r.unsubscribed) rows : ℚ) /
              (sumInt (fun r => r.delivered) rows : ℚ)) ∧
      (0 < sumInt (fun r => r.sent) rows →
        (mkWeekSummary label rows).deliveryRate =
            (sumInt (fun r => r.delivered) rows : ℚ) / (sumInt (fun r => r.sent) rows : ℚ) ∧
          (mkWeekSummary label rows).bounceRate =
            (sumInt (fun r => r.bounced) rows : ℚ) / (sumInt (fun r => r.sent) rows : ℚ)) ∧
      (0 < sumInt (fun r => r.opened) rows →
        (mkWeekSummary label rows).ctor =
          (sumInt (fun r => r.clicked) rows : ℚ) / (sumInt (fun r => r.opened) rows : ℚ))) :=
  ⟨fun _ _ _ _ ha => aggRates_of_mem ha,
   fun _ _ _ ha => waggRates_of_mem ha,
   fun _ _ _ ha => subjRates_of_mem ha,
   pdiv_eq_div,
   pdiv_zero_ne_zero,
   weekSummary_rates⟩
/-- C3 (amended): the change equals `(current - previous) / previous *
100` whenever the previous value is nonzero, and the first row of each
automation gets a NaN (null) change; but a zero previous value yields
null only when the current value is also 0 — a positive current value
produces +infinity. -/
theorem C3_pct_change_semantics :
    (∀ p c : ℚ, p ≠ 0 → pctChange100 (.num p) (.num c) = .num ((c - p) / p * 100)) ∧
    (∀ c : ℚ, 0 < c → pctChange100 (.num 0) (.num c) = .pinf) ∧
    pctChange100 (.num 0) (.num 0) = .nan ∧
    (∀ (seen : List (String × (PVal × PVal × PVal))) (r : WAggRow) (rest : List WAggRow),
      lastRates seen r.automacao = none →
      ∃ t tl, attachChanges seen (r :: rest) = t :: tl ∧ t.row = r ∧
        t.openRateChange = .nan ∧ t.clickRateChange = .nan ∧ t.ctorChange = .nan) := by
  refine ⟨pctChange100_num, pctChange100_zero_of_pos, by decide, ?_⟩
  intro seen r rest h
  refine ⟨⟨r, PVal.nan, PVal.nan, PVal.nan⟩,
    attachChanges ((r.automacao, (r.openRate, r.clickRate, r.ctor)) :: seen) rest,
    ?_, rfl, rfl, rfl, rfl⟩
  simp [attachChanges, h]
/-- C4 (amended): a rate cell that is a string ending in `%` has its
numeric prefix parsed and divided by 100; any other value passes through
unchanged; but a `%`-string whose prefix cannot be parsed raises an
error (`ValueError` from `float`), it does not become a missing-value
marker. -/
theorem C4_percent_coercion :
    (∀ (s : String) (q : ℚ), endsWithPercent s = true →
      parseFloat ((stripPercent s.data).asString) = some q →
      convertPercentToFloat (.str s) = .ok (.num (q / 100))) ∧
    (∀ s : String, endsWithPercent s = true →
      parseFloat ((stripPercent s.data).asString) = none →
      convertPercentToFloat (.str s) = .error ("ValueError")) ∧
    (∀ s : String, endsWithPercent s = false →
      convertPercentToFloat (.str s) = .ok (.str s)) ∧
    (∀ q : ℚ, convertPercentToFloat (.num q) = .ok (.num q)) ∧
    convertPercentToFloat .na = .ok .na := by
  refine ⟨?_, ?_, ?_, fun q => rfl, rfl⟩
  · intro s q h hp
    simp only [convertPercentToFloat, h, if_true, hp]
    rw [qdiv100_eq]
  · intro s h hp
    simp [convertPercentToFloat, h, hp]
  · intro s h
    simp [convertPercentToFloat, h]
/-- C5 (amended): an explicit week label is used as given; without one,
a filename containing both `sent_` and `.csv` yields the label
`"<date1> a <date2>"` cut from the date part; in every other case the
label is null (`None`) — the `"Semana <week>, <year>"` fallback sits in
an `except` branch that filename parsing can never trigger. -/
theorem C5_week_label_resolution :
    (∀ l f : String, resolveWeekLabel (some l) f = some l) ∧
    (∀ f : String, containsSub sentPat ((pyBasename f).data) = true →
      containsSub csvPat ((pyBasename f).data) = true →
      resolveWeekLabel none f =
        some (((extractDatePart ((pyBasename f).data)).take 10).asString ++ (" a ") ++
          ((extractDatePart ((pyBasename f).data)).drop 10).asString)) ∧
    (∀ f : String, (containsSub sentPat ((pyBasename f).data) = false ∨
      containsSub csvPat ((pyBasename f).data) = false) →
      resolveWeekLabel none f = none) := by
  refine ⟨fun l f => rfl, ?_, ?_⟩
  · intro f h₁ h₂
    simp [resolveWeekLabel, h₁, h₂]
  · intro f h
    rcases h with h | h <;> simp [resolveWeekLabel, h]
/-- C8 (amended): the conversion keeps every rate cell in `[0, 1]` (or
missing) provided each already-numeric input lies in `[0, 1]` and each
percent string's parsed prefix lies in `[0, 100]`; out-of-range inputs
pass through scaled or unchanged, so the bound is conditional on the
input ranges. -/
theorem C8_normalized_rates_in_unit_interval :
    ∀ (col out : List Cell),
      (∀ c ∈ col, c = Cell.na ∨ (∃ q, c = Cell.num q ∧ 0 ≤ q ∧ q ≤ 1) ∨
        (∃ s q, c = Cell.str s ∧ endsWithPercent s = true ∧
          parseFloat ((stripPercent s.data).asString) = some q ∧ 0 ≤ q ∧ q ≤ 100)) →
      convertRateColumn col = .ok out →
      ∀ c ∈ out, c = Cell.na ∨ ∃ q, c = Cell.num q ∧ 0 ≤ q ∧ q ≤ 1 := by
  intro col
  induction col with
  | nil =>
    intro out _ hconv c hc
    have h2 : Except.ok ([] : List Cell) = Except.ok out := hconv
    obtain rfl : ([] : List Cell) = out := Except.ok.inj h2
    simp at hc
  | cons x xs ih =>
    intro out hin hconv c hc
    have hx : x = Cell.na ∨ (∃ q, x = Cell.num q ∧ 0 ≤ q ∧ q ≤ 1) ∨
        (∃ s q, x = Cell.str s ∧ endsWithPercent s = true ∧
          parseFloat ((stripPercent s.data).asString) = some q ∧ 0 ≤ q ∧ q ≤ 100) :=
      hin x (List.mem_cons_self x xs)
    have hxval : ∃ v, convertPercentToFloat x = .ok v ∧
        (v = Cell.na ∨ ∃ q, v = Cell.num q ∧ 0 ≤ q ∧ q ≤ 1) := by
      rcases hx with rfl | ⟨q, rfl, hq₀, hq₁⟩ | ⟨s, q, rfl, hpct, hparse, hq₀, hq₁⟩
      · exact ⟨Cell.na, rfl, Or.inl rfl⟩
      · exact ⟨Cell.num q, rfl, Or.inr ⟨q, rfl, hq₀, hq₁⟩⟩
      · refine ⟨Cell.num (qdiv100 q), by simp [convertPercentToFloat, hpct, hparse], ?_⟩
        refine Or.inr ⟨qdiv100 q, rfl, ?_, ?_⟩
        · rw [qdiv100_eq]
          positivity
        · rw [qdiv100_eq]
          rw [div_le_one (by norm_num)]
          linarith
    rcases hxval with ⟨v, hv, hvprop⟩
    simp only [convertRateColumn, List.mapM_cons, hv] at hconv
    rcases hxs : xs.mapM convertPercentToFloat with e | ys
    · rw [hxs] at hconv
      exact absurd (show Except.error e = Except.ok out from hconv) (by simp)
    · rw [hxs] at hconv
      obtain rfl : v :: ys = out :=
        Except.ok.inj (show Except.ok (v :: ys) = Except.ok out from hconv)
      rcases List.mem_cons.mp hc with rfl | hcm
      · exact hvprop
      · exact ih ys (fun d hd => hin d (List.mem_cons_of_mem x hd)) hxs c hcm
/-! ## Concrete inputs for the end-to-end scenario, counterexamples and
witnesses -/
/-- C7: for mapping `{A→G1, B→G1}` and the single week with rows A and
B, the automation-level aggregate reports sent=250, delivered=246,
opened=55, clicked=13, open rate 55/246 and click rate 13/246. -/
theorem C7_end_to_end_scenario :
    getAutomationPerformance demoStore demoMapping 100 =
      [{ automacao := ("G1"), sent := 250, delivered := 246, opened := 55, clicked := 13,
         bounced := 0, unsubscribed := 0,
         deliveryRate := .num (mkRat 246 250), openRate := .num (mkRat 55 246),
         clickRate := .num (mkRat 13 246), ctor := .num (mkRat 13 55),
         bounceRate := .num 0, unsubscribeRate := .num 0 }] ∧
    mkRat 55 246 = (55 : ℚ) / 246 ∧ mkRat 13 246 = (13 : ℚ) / 246 := by
  refine ⟨by decide, ?_, ?_⟩ <;> rw [Rat.mkRat_eq_div] <;> norm_num
/-- C1 counterexample: at the per-automation granularity a zero summed
denominator does not give rate 0 — the open rate of the aggregated G1
row (denominator `Delivered = 0`) is NaN. -/
theorem C1_counterexample :
    (getAutomationPerformance c1Store c1Mapping 100).map (fun a => (a.delivered, a.openRate)) =
      [((0 : ℤ), PVal.nan)] ∧ PVal.nan ≠ PVal.num 0 :=
  ⟨by decide, by decide⟩
/-- C2 counterexample: with insertion order `[Week 9, Week 10]` the
trend table's rows come out as `[Week 10, Week 9]` — alphabetical
comparison of the label strings, not insertion order. -/
theorem C2_counterexample :
    c2Store.map Prod.fst = [("Week 9"), ("Week 10")] ∧
    (getWeekOverWeekChanges c2Store c2Mapping).map (fun t => t.row.semana) =
      [("Week 10"), ("Week 9")] :=
  ⟨by decide, by decide⟩
/-- C3 counterexample: a zero previous open rate yields a +infinity
change for the next week, not an undefined/null change. -/
theorem C3_counterexample :
    (getWeekOverWeekChanges c3Store c3Mapping).map
        (fun t => (t.row.semana, t.row.openRate, t.openRateChange)) =
      [(("W1"), PVal.num 0, PVal.nan), (("W2"), PVal.num (mkRat 1 2), PVal.pinf)] := by
  decide
/-- C4 counterexample: a `%`-string with an unparseable numeric prefix
raises (propagates an error), it does not become a missing-value
marker. -/
theorem C4_counterexample :
    convertPercentToFloat (Cell.str ("abc%")) = Except.error ("ValueError") ∧
    convertPercentToFloat (Cell.str ("abc%")) ≠ Except.ok Cell.na :=
  ⟨rfl, fun h => Except.noConfusion
    (show Except.error ("ValueError") = Except.ok Cell.na from h)⟩
/-- C5 counterexample: a filename that does not match the
`sent_...csv` convention produces a null week label — the
`"Semana <week>, <year>"` fallback never fires. -/
theorem C5_counterexample : resolveWeekLabel none ("data.txt") = none := by decide
/-- C8 counterexample: the percent string `"150%"` becomes 3/2, outside
`[0, 1]`. -/
theorem C8_counterexample :
    convertRateColumn [Cell.str ("150%")] = Except.ok [Cell.num (mkRat 3 2)] ∧
    ¬ (mkRat 3 2 ≤ 1) := by
  refine ⟨rfl, ?_⟩
  rw [Rat.mkRat_eq_div]
  norm_num
/-! ## Witnesses -/
/-- Witness for C1: the rate/sum identities instantiated on the
end-to-end aggregate row, `pdiv` on concrete inputs, and the guarded
week-summary rates on concrete tables. -/
theorem C1_rates_witness :
    (demoAggRow.deliveryRate = pdiv demoAggRow.delivered demoAggRow.sent ∧
      demoAggRow.openRate = pdiv demoAggRow.opened demoAggRow.delivered ∧
      demoAggRow.clickRate = pdiv demoAggRow.clicked demoAggRow.delivered ∧
      demoAggRow.ctor = pdiv demoAggRow.clicked demoAggRow.opened ∧
      demoAggRow.bounceRate = pdiv demoAggRow.bounced demoAggRow.sent ∧
      demoAggRow.unsubscribeRate = pdiv demoAggRow.unsubscribed demoAggRow.delivered) ∧
    pdiv 5 2 = PVal.num ((5 : ℚ) / 2) ∧
    pdiv 7 0 ≠ PVal.num 0 ∧
    ((mkWeekSummary ("W1") [c1Row]).openRate = 0 ∧
      (mkWeekSummary ("W1") [c1Row]).clickRate = 0 ∧
      (mkWeekSummary ("W1") [c1Row]).unsubscribeRate = 0) ∧
    ((mkWeekSummary ("W1") [rowA, rowB]).openRate =
        (sumInt (fun r => r.opened) [rowA, rowB] : ℚ) /
          (sumInt (fun r => r.delivered) [rowA, rowB] : ℚ) ∧
      (mkWeekSummary ("W1") [rowA, rowB]).clickRate =
        (sumInt (fun r => r.clicked) [rowA, rowB] : ℚ) /
          (sumInt (fun r => r.delivered) [rowA, rowB] : ℚ) ∧
      (mkWeekSummary ("W1") [rowA, rowB]).unsubscribeRate =
        (sumInt (fun r => r.unsubscribed) [rowA, rowB] : ℚ) /
          (sumInt (fun r => r.delivered) [rowA, rowB] : ℚ)) :=
  ⟨C1_rates_are_ratios_of_sums.1 demoStore demoMapping 100 demoAggRow (by decide),
   C1_rates_are_ratios_of_sums.2.2.2.1 5 2 (by norm_num),
   C1_rates_are_ratios_of_sums.2.2.2.2.1 7,
   ((C1_rates_are_ratios_of_sums.2.2.2.2.2 ("W1") [c1Row]).1 (by decide)),
   ((C1_rates_are_ratios_of_sums.2.2.2.2.2 ("W1") [rowA, rowB]).2.2.2.1 (by decide))⟩
/-- Witness for C3: the change formula at (previous 2, current 3), the
infinity case at (previous 0, current 1), and a first-of-automation row
receiving NaN changes. -/
theorem C3_pct_change_witness :
    pctChange100 (.num 2) (.num 3) = .num (((3 : ℚ) - 2) / 2 * 100) ∧
    pctChange100 (.num 0) (.num 1) = PVal.pinf ∧
    (∃ t tl, attachChanges [] [c3WRow] = t :: tl ∧ t.row = c3WRow ∧
      t.openRateChange = .nan ∧ t.clickRateChange = .nan ∧ t.ctorChange = .nan) :=
  ⟨C3_pct_change_semantics.1 2 3 (by norm_num),
   C3_pct_change_semantics.2.1 1 (by norm_num),
   C3_pct_change_semantics.2.2.2 [] c3WRow [] (by decide)⟩
/-- Witness for C4: the three string cases on concrete inputs. -/
theorem C4_percent_coercion_witness :
    convertPercentToFloat (.str ("55%")) = .ok (.num ((55 : ℚ) / 100)) ∧
    convertPercentToFloat (.str ("abc%")) = .error ("ValueError") ∧
    convertPercentToFloat (.str ("abc")) = .ok (.str ("abc")) :=
  ⟨C4_percent_coercion.1 ("55%") 55 (by decide) (by decide),
   C4_percent_coercion.2.1 ("abc%") (by decide) (by decide),
   C4_percent_coercion.2.2.1 ("abc") (by decide)⟩
/-- Witness for C5: the three branches of week-label resolution on
concrete paths. -/
theorem C5_week_label_witness :
    resolveWeekLabel (some ("lbl")) ("x.csv") = some ("lbl") ∧
    resolveWeekLabel none ("report_sent_2025-01-012025-01-07.csv") =
      some (((extractDatePart
            ((pyBasename ("report_sent_2025-01-012025-01-07.csv")).data)).take 10).asString ++
          (" a ") ++
        ((extractDatePart
            ((pyBasename ("report_sent_2025-01-012025-01-07.csv")).data)).drop 10).asString) ∧
    resolveWeekLabel none ("nolabel.bin") = none :=
  ⟨C5_week_label_resolution.1 ("lbl") ("x.csv"),
   C5_week_label_resolution.2.1 ("report_sent_2025-01-012025-01-07.csv") (by decide) (by decide),
   C5_week_label_resolution.2.2 ("nolabel.bin") (Or.inl (by decide))⟩
/-- Witness for C6: with threshold 100 and two weeks of 50 sent each,
G1 appears in the output with the total 100. -/
theorem C6_min_volume_witness :
    (∃ a ∈ getAutomationPerformance c6Store c6Mapping 100,
      a.automacao = ("G1") ∧
      a.sent = sumInt (fun r => r.sent)
        (rowsOfGroup ("G1") (mergeWithMapping (combineAllWeeks c6Store) c6Mapping))) ∧
    (∀ a ∈ getAutomationPerformance c6Store c6Mapping 100, 100 ≤ a.sent) :=
  C6_min_volume_after_aggregation c6Store c6Mapping 100 ("G1") (by decide) (by decide)
/-- Witness for C8: the converted `"55%"` cell lands in `[0, 1]`. -/
theorem C8_unit_interval_witness :
    Cell.num (qdiv100 (mkRat 55 1)) = Cell.na ∨
      ∃ q, Cell.num (qdiv100 (mkRat 55 1)) = Cell.num q ∧ 0 ≤ q ∧ q ≤ 1 :=
  C8_normalized_rates_in_unit_interval c8Col c8Out
    (by
      intro c hc
      rcases List.mem_cons.mp hc with rfl | hc
      · refine Or.inr (Or.inl ⟨mkRat 1 2, rfl, ?_, ?_⟩) <;> rw [Rat.mkRat_eq_div] <;> norm_num
      rcases List.mem_cons.mp hc with rfl | hc
      · refine Or.inr (Or.inr ⟨("55%"), mkRat 55 1, rfl, by decide, by decide, ?_, ?_⟩) <;>
          rw [Rat.mkRat_eq_div] <;> norm_num
      rcases List.mem_cons.mp hc with rfl | hc
      · exact Or.inl rfl
      · simp at hc)
    rfl (Cell.num (qdiv100 (mkRat 55 1))) (by decide)
/-- Witness for C9: the unmapped campaign X survives the left join with
a null group. -/
theorem C9_left_join_witness :
    (∃ g, (c9Row, g) ∈ mergeWithMapping [c9Row] demoMapping) ∧
    (c9Row, none) ∈ mergeWithMapping [c9Row] demoMapping :=
  ⟨(C9_left_join_preserves_rows [c9Row] demoMapping c9Row (by decide)).1,
   (C9_left_join_preserves_rows [c9Row] demoMapping c9Row (by decide)).2 (by decide)⟩

end EmailReport
